import Mathlib

/-!
Shallow embedding of `src/main.rs` of tapis-project/sshkeytest: a benchmark
harness that times SSH key generation for ECDSA (NIST P-521), Ed25519 and RSA
using the `ssh-key` crate, and prints the first generated key's encodings.

The cryptographic generation itself (`PrivateKey::random`) and the crate's
encoders are external black boxes; the embedding models the generation
capability as a function from the invocation index to a result, and a
generated key as the record of results the program observes from it
(the fallible encoder calls and the fingerprint).  Execution is modelled as
the list of observable events (clock reads, `println!` outputs, capability
invocations, the first-key dump block) together with a run outcome
(normal return or panic).
-/

namespace SshKeyBench

/-- Elliptic curves of `ssh_key::EcdsaCurve`. -/
inductive EcdsaCurve where
  | NistP256
  | NistP384
  | NistP521
deriving DecidableEq

/-- Hash algorithms of `ssh_key::HashAlg`. -/
inductive HashAlg where
  | Sha256
  | Sha512
deriving DecidableEq

/-- `ssh_key::Algorithm`, restricted to the variants this program mentions. -/
inductive Algorithm where
  | Rsa (hash : Option HashAlg)
  | Ecdsa (curve : EcdsaCurve)
  | Ed25519
deriving DecidableEq

/-- `Algorithm::to_string()` — the crate's algorithm identifier strings. -/
def Algorithm.toString : Algorithm → String
  | .Rsa none => "ssh-rsa"
  | .Rsa (some .Sha256) => "rsa-sha2-256"
  | .Rsa (some .Sha512) => "rsa-sha2-512"
  | .Ecdsa .NistP256 => "ecdsa-sha2-nistp256"
  | .Ecdsa .NistP384 => "ecdsa-sha2-nistp384"
  | .Ecdsa .NistP521 => "ecdsa-sha2-nistp521"
  | .Ed25519 => "ssh-ed25519"

/-- The curve of an `Algorithm`, when it is the ECDSA variant. -/
def Algorithm.ecdsaCurve : Algorithm → Option EcdsaCurve
  | .Ecdsa c => some c
  | _ => none

/-- `std::time::Duration`: whole seconds plus sub-second nanoseconds. -/
structure Duration where
  secs : Nat
  nanos : Nat
deriving DecidableEq

/-- `NANOS_PER_SEC` of `std::time`. -/
def nanosPerSec : Nat := 1000000000

/-- `Duration::checked_div(rhs: u32)` from Rust std, which `Div<u32> for
Duration` calls: per-field truncating division with the remainders carried
into the nanosecond component; `None` when `rhs == 0`. -/
def Duration.checked_div (d : Duration) (rhs : Nat) : Option Duration :=
  if rhs ≠ 0 then
    some { secs := d.secs / rhs,
           nanos := d.nanos / rhs + (d.secs % rhs * nanosPerSec + d.nanos % rhs) / rhs }
  else
    none

/-- The total length of a `Duration` in nanoseconds. -/
def Duration.totalNanos (d : Duration) : Nat :=
  d.secs * nanosPerSec + d.nanos

/-- The value of `duration / iterations` when the division succeeds
(`Div<u32> for Duration` panics on the `none` case). -/
def meanDur (d : Duration) (n : Nat) : Duration :=
  (d.checked_div n).getD { secs := 0, nanos := 0 }

/-- The panic message of `Div<u32> for Duration` on a zero divisor
(`checked_div(rhs).expect(..)` in Rust std). -/
def divByZeroMsg : String := "divide by zero error when dividing duration by scalar"

deriving instance DecidableEq for Except

/-- What the program observes of one generated `ssh_key::PrivateKey`: the
results of the fallible encoder calls made on the first key
(`to_openssh`, `to_bytes`, `public_key().to_openssh()`) and the
fingerprint string.  The key's cryptographic contents are an external
black box; only the results of the calls the program makes are modelled. -/
structure Key where
  to_openssh : Except String String
  to_bytes : Except String (List Nat)
  public_openssh : Except String String
  fingerprint : String
deriving DecidableEq

/-- The generation capability (`PrivateKey::random(rng, alg)` together with
its RNG): the result of the k-th invocation within a run. -/
def GenCap : Type := Nat → Except String Key

/-- Observable events of a run. -/
inductive Event where
  | clockStart
  | clockStop
  | output (s : String)
  | genCall (alg : Algorithm) (idx : Nat)
  | dump (idx : Nat)
deriving DecidableEq

/-- How a run ends: normal return, or a Rust panic with its message. -/
inductive RunOutcome where
  | normal
  | panicked (msg : String)
deriving DecidableEq

/-- The `if key_cnt == 1` block of `gen_ssh_keys`: print the private-key
armor, the private encoding's byte length, the public-key line and the
fingerprint.  Each fallible encoder call is guarded by `if let Ok(..)`,
so an `Err` result skips that print. -/
def dumpKey (key : Key) : List Event :=
  [Event.output "------- Private key:"]
    ++ (match key.to_openssh with
        | Except.ok k => [Event.output k]
        | Except.error _ => [])
    ++ (match key.to_bytes with
        | Except.ok b => [Event.output ("Key length in bytes = " ++ Nat.repr b.length)]
        | Except.error _ => [])
    ++ (match key.public_openssh with
        | Except.ok pubk => [Event.output ("\n------- Public key: \n" ++ pubk)]
        | Except.error _ => [])
    ++ [Event.output ("\n------- fingerprint: \n" ++ key.fingerprint)]

/-- The `while key_cnt < iterations` loop of `gen_ssh_keys`, recursing on
`remaining = iterations - key_cnt` (the loop body increments `key_cnt` and
then invokes the generation capability; a generation failure panics with
`"Key generation failed: <cause>"`; on the first iteration the generated
key is dumped). -/
def genLoop (gen : GenCap) (alg : Algorithm) : Nat → Nat → List Event × RunOutcome
  | 0, _ => ([], RunOutcome.normal)
  | remaining + 1, key_cnt =>
    let k := key_cnt + 1
    match gen k with
    | Except.error e =>
      ([Event.genCall alg k], RunOutcome.panicked ("Key generation failed: " ++ e))
    | Except.ok key =>
      let evs := Event.genCall alg k :: (if k = 1 then Event.dump k :: dumpKey key else [])
      let rest := genLoop gen alg remaining k
      (evs ++ rest.1, rest.2)

/-- The announcement line printed at the top of `gen_ssh_keys`. -/
def announceLine (iterations : Nat) (alg : Algorithm) : String :=
  "\n>>>>>>>>>> Beginning test of " ++ Nat.repr iterations ++ " iterations of "
    ++ alg.toString ++ " keys."

/-- `gen_ssh_keys(iterations, rng, algorithm)`: announce the test, then run
the generation loop starting from `key_cnt = 0`. -/
def gen_ssh_keys (gen : GenCap) (iterations : Nat) (alg : Algorithm) :
    List Event × RunOutcome :=
  let res := genLoop gen alg iterations 0
  (Event.output (announceLine iterations alg) :: res.1, res.2)

/-- The report line `println!("Time to generate {} {} keys: {:?} ({:?} per key)", ..)`
of `main`, with the std `Debug` rendering of `Duration` as a parameter
(it is external formatting code). -/
def reportLine (fmtDur : Duration → String) (iterations : Nat) (alg : Algorithm)
    (total mean : Duration) : String :=
  "Time to generate " ++ Nat.repr iterations ++ " " ++ alg.toString ++ " keys: "
    ++ fmtDur total ++ " (" ++ fmtDur mean ++ " per key)"

/-- One algorithm block of `main`: start the clock, run `gen_ssh_keys`,
stop the clock, and print the report line whose mean is
`duration / iterations` (which panics when `iterations = 0`).  A panic
inside `gen_ssh_keys` propagates, skipping the clock stop and the report. -/
def benchAlg (gen : GenCap) (fmtDur : Duration → String) (iterations : Nat)
    (alg : Algorithm) (elapsed : Duration) : List Event × RunOutcome :=
  let res := gen_ssh_keys gen iterations alg
  match res.2 with
  | RunOutcome.panicked m => (Event.clockStart :: res.1, RunOutcome.panicked m)
  | RunOutcome.normal =>
    match elapsed.checked_div iterations with
    | none =>
      (Event.clockStart :: (res.1 ++ [Event.clockStop]), RunOutcome.panicked divByZeroMsg)
    | some mean =>
      (Event.clockStart ::
        (res.1 ++ [Event.clockStop,
                   Event.output (reportLine fmtDur iterations alg elapsed mean)]),
       RunOutcome.normal)

/-- `const ITERATIONS: u32 = 1000` of `main`. -/
def ITERATIONS : Nat := 1000

/-- `const RSA_ITERATIONS: u32 = 1` of `main`. -/
def RSA_ITERATIONS : Nat := 1

/-- `main` with the default `TEST_ALGS = ["RSA", "ECDSA", "ED25519"]`:
benchmark ECDSA with curve NIST P-521, then Ed25519, then RSA with SHA-256.
The generation capability of each run and the measured elapsed durations
are parameters (they stand for the OS RNG and the monotonic clock); a
panic in an earlier run prevents the later runs. -/
def main (genE genD genR : GenCap) (fmtDur : Duration → String)
    (dE dD dR : Duration) : List Event × RunOutcome :=
  let r1 := benchAlg genE fmtDur ITERATIONS (Algorithm.Ecdsa EcdsaCurve.NistP521) dE
  match r1.2 with
  | RunOutcome.panicked m => (r1.1, RunOutcome.panicked m)
  | RunOutcome.normal =>
    let r2 := benchAlg genD fmtDur ITERATIONS Algorithm.Ed25519 dD
    match r2.2 with
    | RunOutcome.panicked m => (r1.1 ++ r2.1, RunOutcome.panicked m)
    | RunOutcome.normal =>
      let r3 := benchAlg genR fmtDur RSA_ITERATIONS (Algorithm.Rsa (some HashAlg.Sha256)) dR
      (r1.1 ++ (r2.1 ++ r3.1), r3.2)

/-- The invocation indices of the generation-capability calls in a trace. -/
def genCalls (evs : List Event) : List Nat :=
  evs.filterMap fun e =>
    match e with
    | Event.genCall _ i => some i
    | _ => none

/-- The iteration indices at which the first-key dump block ran. -/
def dumps (evs : List Event) : List Nat :=
  evs.filterMap fun e =>
    match e with
    | Event.dump i => some i
    | _ => none

/-- Whether `pat` is an initial segment of `l`. -/
def listStartsWith : List Char → List Char → Bool
  | [], _ => true
  | _ :: _, [] => false
  | p :: ps, c :: cs => p == c && listStartsWith ps cs

/-- Whether `pat` occurs contiguously anywhere in the second list. -/
def occursIn (pat : List Char) : List Char → Bool
  | [] => listStartsWith pat []
  | c :: cs => listStartsWith pat (c :: cs) || occursIn pat cs

/-- Modelled from the spec: the report-line template the spec states,
`"<iterations> <algorithm-display-name> keys: <total-duration> (<mean-duration> per key)"`
(section 6 of the spec), for comparison with the line the code emits. -/
def specReportLine (iterations : Nat) (alg : Algorithm) (total mean : String) : String :=
  Nat.repr iterations ++ " " ++ alg.toString ++ " keys: " ++ total ++ " ("
    ++ mean ++ " per key)"

/- Concrete fixtures used to instantiate hypotheses and counterexamples. -/

/-- A key all of whose encoder calls succeed. -/
def okKey : Key :=
  { to_openssh := Except.ok "PRIVATE-ARMOR",
    to_bytes := Except.ok [1, 2, 3],
    public_openssh := Except.ok "ssh-ed25519 AAAA comment",
    fingerprint := "SHA256:abc" }

/-- A capability that always succeeds. -/
def okGen : GenCap := fun _ => Except.ok okKey

/-- A capability whose third invocation fails (an RNG failing on its third
call, the spec's scenario D). -/
def failAt3Gen : GenCap := fun k =>
  if k ≤ 2 then Except.ok okKey else Except.error "rng failure"

/-- A key all of whose encoder calls fail. -/
def badEncKey : Key :=
  { to_openssh := Except.error "field too large",
    to_bytes := Except.error "field too large",
    public_openssh := Except.error "field too large",
    fingerprint := "SHA256:abc" }

/-- A capability that always succeeds but yields keys whose encodings fail. -/
def badEncGen : GenCap := fun _ => Except.ok badEncKey

/-- A capability that always fails. -/
def failGen : GenCap := fun _ => Except.error "rng failure"

/-- A fixed rendering of durations, standing for the std `Debug` formatter. -/
def fmtT : Duration → String := fun _ => "T"

/-- A sample elapsed duration. -/
def dEx : Duration := { secs := 1, nanos := 500 }

/-- The ECDSA algorithm value `main` constructs. -/
def ecdsaAlg : Algorithm := Algorithm.Ecdsa EcdsaCurve.NistP521

/- Helper lemmas about the trace extractors. -/

@[simp] theorem genCalls_nil : genCalls [] = [] := rfl

@[simp] theorem genCalls_cons_genCall (a : Algorithm) (i : Nat) (l : List Event) :
    genCalls (Event.genCall a i :: l) = i :: genCalls l := rfl

@[simp] theorem genCalls_cons_output (s : String) (l : List Event) :
    genCalls (Event.output s :: l) = genCalls l := rfl

@[simp] theorem genCalls_cons_dump (i : Nat) (l : List Event) :
    genCalls (Event.dump i :: l) = genCalls l := rfl

@[simp] theorem genCalls_cons_clockStart (l : List Event) :
    genCalls (Event.clockStart :: l) = genCalls l := rfl

@[simp] theorem genCalls_cons_clockStop (l : List Event) :
    genCalls (Event.clockStop :: l) = genCalls l := rfl

@[simp] theorem genCalls_append (l₁ l₂ : List Event) :
    genCalls (l₁ ++ l₂) = genCalls l₁ ++ genCalls l₂ :=
  List.filterMap_append _ _ _

@[simp] theorem dumps_nil : dumps [] = [] := rfl

@[simp] theorem dumps_cons_genCall (a : Algorithm) (i : Nat) (l : List Event) :
    dumps (Event.genCall a i :: l) = dumps l := rfl

@[simp] theorem dumps_cons_output (s : String) (l : List Event) :
    dumps (Event.output s :: l) = dumps l := rfl

@[simp] theorem dumps_cons_dump (i : Nat) (l : List Event) :
    dumps (Event.dump i :: l) = i :: dumps l := rfl

@[simp] theorem dumps_cons_clockStart (l : List Event) :
    dumps (Event.clockStart :: l) = dumps l := rfl

@[simp] theorem dumps_cons_clockStop (l : List Event) :
    dumps (Event.clockStop :: l) = dumps l := rfl

@[simp] theorem dumps_append (l₁ l₂ : List Event) :
    dumps (l₁ ++ l₂) = dumps l₁ ++ dumps l₂ :=
  List.filterMap_append _ _ _

@[simp] theorem genCalls_dumpKey (key : Key) : genCalls (dumpKey key) = [] := by
  obtain ⟨a, b, c, fp⟩ := key
  cases a <;> cases b <;> cases c <;> rfl

@[simp] theorem dumps_dumpKey (key : Key) : dumps (dumpKey key) = [] := by
  obtain ⟨a, b, c, fp⟩ := key
  cases a <;> cases b <;> cases c <;> rfl

theorem genCall_not_mem_dumpKey (a : Algorithm) (i : Nat) (key : Key) :
    Event.genCall a i ∉ dumpKey key := by
  obtain ⟨x, y, z, fp⟩ := key
  cases x <;> cases y <;> cases z <;> simp [dumpKey]

/- Helper lemmas about `List.range'`. -/

theorem range1_len : ∀ (n s : Nat), (List.range' s n).length = n := by
  intro n
  induction n with
  | zero => intro s; rfl
  | succ m ih => intro s; simp [List.range', ih (s + 1)]

theorem chain_succ_range1 :
    ∀ (n s : Nat), List.Chain' (fun a b => b = a + 1) (List.range' s n) := by
  intro n
  induction n with
  | zero => intro s; simp [List.range']
  | succ m ih =>
    intro s
    cases m with
    | zero => simp [List.range']
    | succ p =>
      have hstep : List.range' s (p + 1 + 1) = s :: List.range' (s + 1) (p + 1) := rfl
      rw [hstep, List.chain'_cons']
      refine ⟨?_, ih (s + 1)⟩
      intro y hy
      simp [List.range'] at hy
      omega

/- Helper lemmas about the generation loop. -/

theorem genLoop_succ_err {gen : GenCap} {alg : Algorithm} {r c : Nat} {e : String}
    (hg : gen (c + 1) = Except.error e) :
    genLoop gen alg (r + 1) c
      = ([Event.genCall alg (c + 1)],
         RunOutcome.panicked ("Key generation failed: " ++ e)) := by
  simp [genLoop, hg]

theorem genLoop_succ_ok {gen : GenCap} {alg : Algorithm} {r c : Nat} {key : Key}
    (hg : gen (c + 1) = Except.ok key) :
    genLoop gen alg (r + 1) c
      = ((Event.genCall alg (c + 1)
            :: (if c + 1 = 1 then Event.dump (c + 1) :: dumpKey key else []))
           ++ (genLoop gen alg r (c + 1)).1,
         (genLoop gen alg r (c + 1)).2) := by
  simp [genLoop, hg]

theorem genLoop_normal_genCalls (gen : GenCap) (alg : Algorithm) :
    ∀ r c, (genLoop gen alg r c).2 = RunOutcome.normal →
      genCalls (genLoop gen alg r c).1 = List.range' (c + 1) r := by
  intro r
  induction r with
  | zero => intro c _; rfl
  | succ m ih =>
    intro c h
    have hr : List.range' (c + 1) (m + 1) = (c + 1) :: List.range' (c + 1 + 1) m := rfl
    cases hg : gen (c + 1) with
    | error e => rw [genLoop_succ_err hg] at h; simp at h
    | ok key =>
      rw [genLoop_succ_ok hg] at h
      have h2 : (genLoop gen alg m (c + 1)).2 = RunOutcome.normal := h
      rw [hr, genLoop_succ_ok hg]
      by_cases hc : c + 1 = 1
      · have hc0 : c = 0 := by omega
        subst hc0
        simp [ih 1 h2]
      · simp [hc, ih (c + 1) h2]

theorem genLoop_all_ok_normal (gen : GenCap) (alg : Algorithm) :
    ∀ r c, (∀ j, c < j → j ≤ c + r → ∃ key, gen j = Except.ok key) →
      (genLoop gen alg r c).2 = RunOutcome.normal := by
  intro r
  induction r with
  | zero => intro c _; rfl
  | succ m ih =>
    intro c hok
    obtain ⟨key, hkey⟩ := hok (c + 1) (by omega) (by omega)
    have hrec := ih (c + 1) (fun j h1 h2 => hok j (by omega) (by omega))
    rw [genLoop_succ_ok hkey]
    exact hrec

theorem genLoop_first_fail (gen : GenCap) (alg : Algorithm) :
    ∀ r c k e, c < k → k ≤ c + r →
      (∀ j, c < j → j < k → ∃ key, gen j = Except.ok key) →
      gen k = Except.error e →
      (genLoop gen alg r c).2 = RunOutcome.panicked ("Key generation failed: " ++ e) ∧
      genCalls (genLoop gen alg r c).1 = List.range' (c + 1) (k - c) := by
  intro r
  induction r with
  | zero => intro c k e h1 h2 _ _; omega
  | succ m ih =>
    intro c k e h1 h2 hok herr
    by_cases hk : k = c + 1
    · subst hk
      have hones : c + 1 - c = 1 := by omega
      rw [genLoop_succ_err herr, hones]
      constructor
      · rfl
      · rfl
    · have hc1 : c + 1 < k := by omega
      obtain ⟨key, hkey⟩ := hok (c + 1) (by omega) hc1
      obtain ⟨ho, hcalls⟩ := ih (c + 1) k e (by omega) (by omega)
        (fun j ha hb => hok j (by omega) hb) herr
      rw [genLoop_succ_ok hkey]
      constructor
      · exact ho
      · have hlen : k - c = (k - (c + 1)) + 1 := by omega
        have hr : List.range' (c + 1) (k - c)
            = (c + 1) :: List.range' (c + 1 + 1) (k - (c + 1)) := by
          rw [hlen]
          rfl
        rw [hr]
        by_cases hc : c + 1 = 1
        · have hc0 : c = 0 := by omega
          subst hc0
          have hcalls2 : genCalls (genLoop gen alg m 1).1
              = List.range' 2 (k - 1) := hcalls
          simp [hcalls2]
        · simp [hc, hcalls]

theorem dumps_genLoop_pos (gen : GenCap) (alg : Algorithm) :
    ∀ r c, 1 ≤ c → dumps (genLoop gen alg r c).1 = [] := by
  intro r
  induction r with
  | zero => intro c _; rfl
  | succ m ih =>
    intro c hc
    cases hg : gen (c + 1) with
    | error e => rw [genLoop_succ_err hg]; rfl
    | ok key =>
      have hne : ¬ (c + 1 = 1) := by omega
      rw [genLoop_succ_ok hg]
      simp [hne, ih (c + 1) (by omega)]

theorem genCall_mem_genLoop (gen : GenCap) (alg : Algorithm) (a : Algorithm) (i : Nat) :
    ∀ r c, Event.genCall a i ∈ (genLoop gen alg r c).1 → a = alg := by
  intro r
  induction r with
  | zero => intro c h; simp [genLoop] at h
  | succ m ih =>
    intro c h
    cases hg : gen (c + 1) with
    | error e =>
      rw [genLoop_succ_err hg] at h
      simp at h
      exact h.1
    | ok key =>
      rw [genLoop_succ_ok hg] at h
      by_cases hc : c + 1 = 1
      · have hc0 : c = 0 := by omega
        subst hc0
        simp at h
        rcases h with h | h | h
        · exact h.1
        · exact absurd h (genCall_not_mem_dumpKey a i key)
        · exact ih 1 h
      · simp [hc] at h
        rcases h with h | h
        · exact h.1
        · exact ih (c + 1) h

/- Helper lemmas about division and the shape of a benchmark block. -/

theorem checked_div_eq_some (d : Duration) (n : Nat) (hn : n ≠ 0) :
    d.checked_div n = some (meanDur d n) := by
  simp [Duration.checked_div, meanDur, hn]

theorem checked_div_totalNanos (d : Duration) (n : Nat) (hn : 0 < n) :
    Option.map Duration.totalNanos (d.checked_div n) = some (d.totalNanos / n) := by
  have hne : n ≠ 0 := by omega
  simp [Duration.checked_div, hne, Duration.totalNanos]
  have hs := Nat.div_add_mod d.secs n
  have hm := Nat.div_add_mod d.nanos n
  have key : d.secs * nanosPerSec + d.nanos
      = (d.secs % n * nanosPerSec + d.nanos % n)
        + (d.secs / n * nanosPerSec + d.nanos / n) * n := by
    calc d.secs * nanosPerSec + d.nanos
        = (n * (d.secs / n) + d.secs % n) * nanosPerSec
            + (n * (d.nanos / n) + d.nanos % n) := by rw [hs, hm]
      _ = (d.secs % n * nanosPerSec + d.nanos % n)
            + (d.secs / n * nanosPerSec + d.nanos / n) * n := by ring
  rw [key, Nat.add_mul_div_right _ _ hn]
  ring

theorem benchAlg_normal_shape (gen : GenCap) (fmt : Duration → String) (n : Nat)
    (alg : Algorithm) (d : Duration) (hn : n ≠ 0)
    (h : (genLoop gen alg n 0).2 = RunOutcome.normal) :
    benchAlg gen fmt n alg d =
      (Event.clockStart :: Event.output (announceLine n alg) ::
        ((genLoop gen alg n 0).1
          ++ [Event.clockStop, Event.output (reportLine fmt n alg d (meanDur d n))]),
       RunOutcome.normal) := by
  simp [benchAlg, gen_ssh_keys, h, checked_div_eq_some d n hn]

theorem benchAlg_panicked_shape (gen : GenCap) (fmt : Duration → String) (n : Nat)
    (alg : Algorithm) (d : Duration) (m : String)
    (h : (genLoop gen alg n 0).2 = RunOutcome.panicked m) :
    benchAlg gen fmt n alg d =
      (Event.clockStart :: Event.output (announceLine n alg) :: (genLoop gen alg n 0).1,
       RunOutcome.panicked m) := by
  simp [benchAlg, gen_ssh_keys, h]

theorem gen_ssh_keys_normal_genCalls (gen : GenCap) (n : Nat) (alg : Algorithm)
    (h : (gen_ssh_keys gen n alg).2 = RunOutcome.normal) :
    genCalls (gen_ssh_keys gen n alg).1 = List.range' 1 n := by
  have h2 : (genLoop gen alg n 0).2 = RunOutcome.normal := h
  have hcalls := genLoop_normal_genCalls gen alg n 0 h2
  simpa [gen_ssh_keys] using hcalls

theorem genCall_mem_benchAlg (gen : GenCap) (fmt : Duration → String) (n : Nat)
    (alg : Algorithm) (d : Duration) (a : Algorithm) (i : Nat)
    (h : Event.genCall a i ∈ (benchAlg gen fmt n alg d).1) : a = alg := by
  by_cases hn : n = 0
  · subst hn
    have hz : (benchAlg gen fmt 0 alg d).1
        = [Event.clockStart, Event.output (announceLine 0 alg), Event.clockStop] := rfl
    rw [hz] at h
    simp at h
  · cases hout : (genLoop gen alg n 0).2 with
    | normal =>
      rw [benchAlg_normal_shape gen fmt n alg d hn hout] at h
      simp at h
      exact genCall_mem_genLoop gen alg a i n 0 h
    | panicked m =>
      rw [benchAlg_panicked_shape gen fmt n alg d m hout] at h
      simp at h
      exact genCall_mem_genLoop gen alg a i n 0 h

/- The claims. -/

/-- C1, corrected.  The claim says the optional encoding/printing of the
captured first key happens outside the timed interval (or is reported
separately).  In the code the dump runs inside `gen_ssh_keys`, which `main`
times as a whole: at a concrete input the trace places the dump of
iteration 1 (index 3) strictly between the single clock start (index 0)
and the single clock stop (index 10), and exactly one timing report is
emitted, so the dump is neither outside the timed interval nor reported
separately. -/
theorem claim_C1_cx :
    (benchAlg okGen fmtT 2 ecdsaAlg dEx).2 = RunOutcome.normal ∧
    (benchAlg okGen fmtT 2 ecdsaAlg dEx).1 =
      [Event.clockStart,
       Event.output (announceLine 2 ecdsaAlg),
       Event.genCall ecdsaAlg 1,
       Event.dump 1,
       Event.output "------- Private key:",
       Event.output "PRIVATE-ARMOR",
       Event.output "Key length in bytes = 3",
       Event.output "\n------- Public key: \nssh-ed25519 AAAA comment",
       Event.output "\n------- fingerprint: \nSHA256:abc",
       Event.genCall ecdsaAlg 2,
       Event.clockStop,
       Event.output (reportLine fmtT 2 ecdsaAlg dEx (meanDur dEx 2))] ∧
    ((benchAlg okGen fmtT 2 ecdsaAlg dEx).1)[0]? = some Event.clockStart ∧
    ((benchAlg okGen fmtT 2 ecdsaAlg dEx).1)[3]? = some (Event.dump 1) ∧
    ((benchAlg okGen fmtT 2 ecdsaAlg dEx).1)[10]? = some Event.clockStop ∧
    List.countP (fun e => match e with
      | Event.clockStart => true
      | _ => false) (benchAlg okGen fmtT 2 ecdsaAlg dEx).1 = 1 ∧
    List.countP (fun e => match e with
      | Event.clockStop => true
      | _ => false) (benchAlg okGen fmtT 2 ecdsaAlg dEx).1 = 1 ∧
    List.countP (fun e => match e with
      | Event.output s => occursIn " per key)".data s.data
      | _ => false) (benchAlg okGen fmtT 2 ecdsaAlg dEx).1 = 1 := by
  decide

/-- C1, amended: the reported duration spans the whole `gen_ssh_keys` call,
and the encoding/printing of the captured first key happens inside that
timed interval (between the clock start and the clock stop), with a single
report line and no separate report of the encoding time. -/
theorem claim_C1 (gen : GenCap) (fmt : Duration → String) (n : Nat)
    (alg : Algorithm) (d : Duration) (key : Key)
    (hn : 1 ≤ n) (h1 : gen 1 = Except.ok key)
    (hrun : (genLoop gen alg n 0).2 = RunOutcome.normal) :
    (benchAlg gen fmt n alg d).1 =
      Event.clockStart :: Event.output (announceLine n alg) ::
        ((genLoop gen alg n 0).1
          ++ [Event.clockStop, Event.output (reportLine fmt n alg d (meanDur d n))]) ∧
    Event.dump 1 ∈ (genLoop gen alg n 0).1 := by
  have hne : n ≠ 0 := by omega
  have hshape := benchAlg_normal_shape gen fmt n alg d hne hrun
  constructor
  · rw [hshape]
  · obtain ⟨m, rfl⟩ : ∃ m, n = m + 1 := ⟨n - 1, by omega⟩
    have hg : gen (0 + 1) = Except.ok key := by simpa using h1
    rw [genLoop_succ_ok hg]
    simp

/-- Witness for C1's amended theorem at a concrete input. -/
theorem claim_C1_witness :
    (benchAlg okGen fmtT 2 ecdsaAlg dEx).1 =
      Event.clockStart :: Event.output (announceLine 2 ecdsaAlg) ::
        ((genLoop okGen ecdsaAlg 2 0).1
          ++ [Event.clockStop, Event.output (reportLine fmtT 2 ecdsaAlg dEx (meanDur dEx 2))]) ∧
    Event.dump 1 ∈ (genLoop okGen ecdsaAlg 2 0).1 :=
  claim_C1 okGen fmtT 2 ecdsaAlg dEx okKey (by decide) rfl (by decide)

/-- C2, corrected.  The claim says the abort report names the algorithm, the
iteration index and the cause.  With a capability failing on its third
invocation the harness does abort exactly at iteration 3 (calls 1, 2, 3 and
no more), but the panic message is only `"Key generation failed: <cause>"`:
it contains neither the algorithm name nor the iteration index. -/
theorem claim_C2_cx :
    (gen_ssh_keys failAt3Gen 1000 ecdsaAlg).2
      = RunOutcome.panicked "Key generation failed: rng failure" ∧
    genCalls (gen_ssh_keys failAt3Gen 1000 ecdsaAlg).1 = [1, 2, 3] ∧
    occursIn ecdsaAlg.toString.data "Key generation failed: rng failure".data = false ∧
    occursIn "3".data "Key generation failed: rng failure".data = false ∧
    occursIn "2".data "Key generation failed: rng failure".data = false := by
  decide

/-- C2, amended: if the generation capability fails at its k-th invocation
(earlier calls succeeding), the harness aborts at exactly that iteration —
the capability is invoked exactly for iterations 1..k, so k-1 iterations
completed — but the abort report is `"Key generation failed: <cause>"`,
naming only the underlying cause, not the algorithm or the iteration
index. -/
theorem claim_C2 (gen : GenCap) (n k : Nat) (e : String) (alg : Algorithm)
    (hk : 1 ≤ k) (hkn : k ≤ n)
    (hok : ∀ j, 1 ≤ j → j < k → ∃ key, gen j = Except.ok key)
    (herr : gen k = Except.error e) :
    (gen_ssh_keys gen n alg).2 = RunOutcome.panicked ("Key generation failed: " ++ e) ∧
    genCalls (gen_ssh_keys gen n alg).1 = List.range' 1 k := by
  obtain ⟨ho, hc⟩ := genLoop_first_fail gen alg n 0 k e (by omega) (by omega)
    (fun j h1 h2 => hok j (by omega) h2) herr
  constructor
  · exact ho
  · have hsk : genCalls (gen_ssh_keys gen n alg).1 = genCalls (genLoop gen alg n 0).1 := by
      simp [gen_ssh_keys]
    rw [hsk, hc]
    simp

/-- Witness for C2's amended theorem at a concrete input. -/
theorem claim_C2_witness :
    (gen_ssh_keys failAt3Gen 1000 ecdsaAlg).2
      = RunOutcome.panicked ("Key generation failed: " ++ "rng failure") ∧
    genCalls (gen_ssh_keys failAt3Gen 1000 ecdsaAlg).1 = List.range' 1 3 :=
  claim_C2 failAt3Gen 1000 3 "rng failure" ecdsaAlg (by decide) (by decide)
    (fun j h1 h2 => ⟨okKey, by unfold failAt3Gen; rw [if_pos (by omega)]⟩)
    (by decide)

/-- C3, corrected.  The claim says every encoding failure during the
first-key dump is reported to the user.  At a concrete input where all
three encoder calls fail with "field too large", the run completes
normally and the dump block runs, but no output event mentions the
failure at all: the `if let Ok(..)` guards skip failed encodings
silently. -/
theorem claim_C3_cx :
    (gen_ssh_keys badEncGen 2 ecdsaAlg).2 = RunOutcome.normal ∧
    dumps (gen_ssh_keys badEncGen 2 ecdsaAlg).1 = [1] ∧
    List.countP (fun e => match e with
      | Event.output s => occursIn "field too large".data s.data
      | _ => false) (gen_ssh_keys badEncGen 2 ecdsaAlg).1 = 0 := by
  decide

/-- C3, amended: encoding failures during the optional first-key dump never
abort the run (a run whose generation calls all succeed completes normally,
whatever the keys' encoding results), but they are not reported: a failed
encoding step is silently skipped, and the dump output is identical
whatever the error messages are. -/
theorem claim_C3 (gen : GenCap) (n : Nat) (alg : Algorithm)
    (e1 e2 e3 f1 f2 f3 fp : String)
    (hok : ∀ j, 1 ≤ j → j ≤ n → ∃ key, gen j = Except.ok key) :
    (gen_ssh_keys gen n alg).2 = RunOutcome.normal ∧
    dumpKey { to_openssh := Except.error e1, to_bytes := Except.error e2,
              public_openssh := Except.error e3, fingerprint := fp }
      = dumpKey { to_openssh := Except.error f1, to_bytes := Except.error f2,
                  public_openssh := Except.error f3, fingerprint := fp } := by
  constructor
  · exact genLoop_all_ok_normal gen alg n 0 (fun j h1 h2 => hok j (by omega) (by omega))
  · rfl

/-- Witness for C3's amended theorem at a concrete input. -/
theorem claim_C3_witness :
    (gen_ssh_keys badEncGen 2 ecdsaAlg).2 = RunOutcome.normal ∧
    dumpKey { to_openssh := Except.error "field too large", to_bytes := Except.error "field too large",
              public_openssh := Except.error "field too large", fingerprint := "SHA256:abc" }
      = dumpKey { to_openssh := Except.error "other cause", to_bytes := Except.error "another cause",
                  public_openssh := Except.error "third cause", fingerprint := "SHA256:abc" } :=
  claim_C3 badEncGen 2 ecdsaAlg "field too large" "field too large" "field too large"
    "other cause" "another cause" "third cause" "SHA256:abc"
    (fun _ _ _ => ⟨badEncKey, rfl⟩)

/-- C4, confirmed: for iterations > 0, the `Duration / u32` division used for
the mean truncates the total nanosecond count (`checked_div` agrees with
`totalNanos _ / n`), and the completed run's report line carries both the
total elapsed duration and that mean. -/
theorem claim_C4 (gen : GenCap) (fmt : Duration → String) (n : Nat)
    (alg : Algorithm) (d : Duration) (hn : 0 < n)
    (hrun : (genLoop gen alg n 0).2 = RunOutcome.normal) :
    Option.map Duration.totalNanos (d.checked_div n) = some (d.totalNanos / n) ∧
    (meanDur d n).totalNanos = d.totalNanos / n ∧
    (benchAlg gen fmt n alg d).2 = RunOutcome.normal ∧
    Event.output (reportLine fmt n alg d (meanDur d n)) ∈ (benchAlg gen fmt n alg d).1 := by
  have hne : n ≠ 0 := by omega
  have hmap := checked_div_totalNanos d n hn
  have hmean : (meanDur d n).totalNanos = d.totalNanos / n := by
    have hsome := checked_div_eq_some d n hne
    rw [hsome] at hmap
    simpa using hmap
  have hshape := benchAlg_normal_shape gen fmt n alg d hne hrun
  refine ⟨hmap, hmean, ?_, ?_⟩
  · rw [hshape]
  · rw [hshape]
    simp

/-- Witness for C4 at a concrete input. -/
theorem claim_C4_witness :
    Option.map Duration.totalNanos (dEx.checked_div 2) = some (dEx.totalNanos / 2) ∧
    (meanDur dEx 2).totalNanos = dEx.totalNanos / 2 ∧
    (benchAlg okGen fmtT 2 ecdsaAlg dEx).2 = RunOutcome.normal ∧
    Event.output (reportLine fmtT 2 ecdsaAlg dEx (meanDur dEx 2))
      ∈ (benchAlg okGen fmtT 2 ecdsaAlg dEx).1 :=
  claim_C4 okGen fmtT 2 ecdsaAlg dEx (by decide) (by decide)

/-- C5, confirmed: with iterations = 0 the (empty) generation loop returns,
and the mean computation `duration / 0` panics (`checked_div` is `none`),
so the run ends in an error and no report line — hence no silently wrong
mean — is ever emitted. -/
theorem claim_C5 (gen : GenCap) (fmt : Duration → String) (alg : Algorithm) (d : Duration) :
    (benchAlg gen fmt 0 alg d).2 = RunOutcome.panicked divByZeroMsg ∧
    (benchAlg gen fmt 0 alg d).1
      = [Event.clockStart, Event.output (announceLine 0 alg), Event.clockStop] := by
  constructor <;> rfl

/-- C6, confirmed: in a run of at least one iteration whose first generation
succeeds, the first-key dump block runs exactly once, at iteration 1 — for
every later iteration no key is snapshotted or printed. -/
theorem claim_C6 (gen : GenCap) (n : Nat) (alg : Algorithm) (key : Key)
    (hn : 1 ≤ n) (h1 : gen 1 = Except.ok key) :
    dumps (gen_ssh_keys gen n alg).1 = [1] := by
  obtain ⟨m, rfl⟩ : ∃ m, n = m + 1 := ⟨n - 1, by omega⟩
  have hg : gen (0 + 1) = Except.ok key := by simpa using h1
  have hstep := @genLoop_succ_ok gen alg m 0 key hg
  simp [gen_ssh_keys, hstep, dumps_genLoop_pos gen alg m 1 (by omega)]

/-- Witness for C6 at a concrete input. -/
theorem claim_C6_witness : dumps (gen_ssh_keys okGen 3 ecdsaAlg).1 = [1] :=
  claim_C6 okGen 3 ecdsaAlg okKey (by decide) rfl

/-- C7, corrected.  The claim says the report line has the form
`"<iterations> <algorithm-display-name> keys: <total> (<mean> per key)"`.
The emitted line is that template prefixed with `"Time to generate "`: at a
concrete input the line it prints differs from the spec's template and does
not begin with the iteration count. -/
theorem claim_C7_cx :
    (benchAlg okGen fmtT 2 ecdsaAlg dEx).2 = RunOutcome.normal ∧
    ((benchAlg okGen fmtT 2 ecdsaAlg dEx).1)[11]?
      = some (Event.output (reportLine fmtT 2 ecdsaAlg dEx (meanDur dEx 2))) ∧
    reportLine fmtT 2 ecdsaAlg dEx (meanDur dEx 2)
      = "Time to generate 2 ecdsa-sha2-nistp521 keys: T (T per key)" ∧
    specReportLine 2 ecdsaAlg "T" "T" = "2 ecdsa-sha2-nistp521 keys: T (T per key)" ∧
    reportLine fmtT 2 ecdsaAlg dEx (meanDur dEx 2) ≠ specReportLine 2 ecdsaAlg "T" "T" ∧
    listStartsWith (Nat.repr 2).data (reportLine fmtT 2 ecdsaAlg dEx (meanDur dEx 2)).data
      = false := by
  decide

/-- C7, amended: every completed run's report line has the form
`"Time to generate <iterations> <algorithm-display-name> keys: <total-duration> (<mean-duration> per key)"`
(the spec's field order, prefixed with "Time to generate"), emitted after
the clock stop. -/
theorem claim_C7 (gen : GenCap) (fmt : Duration → String) (n : Nat)
    (alg : Algorithm) (d : Duration) (hn : 1 ≤ n)
    (hrun : (genLoop gen alg n 0).2 = RunOutcome.normal) :
    (benchAlg gen fmt n alg d).2 = RunOutcome.normal ∧
    (benchAlg gen fmt n alg d).1 =
      Event.clockStart :: Event.output (announceLine n alg) ::
        ((genLoop gen alg n 0).1
          ++ [Event.clockStop, Event.output (reportLine fmt n alg d (meanDur d n))]) := by
  have hne : n ≠ 0 := by omega
  have hshape := benchAlg_normal_shape gen fmt n alg d hne hrun
  exact ⟨by rw [hshape], by rw [hshape]⟩

/-- Witness for C7's amended theorem at a concrete input. -/
theorem claim_C7_witness :
    (benchAlg okGen fmtT 2 ecdsaAlg dEx).2 = RunOutcome.normal ∧
    (benchAlg okGen fmtT 2 ecdsaAlg dEx).1 =
      Event.clockStart :: Event.output (announceLine 2 ecdsaAlg) ::
        ((genLoop okGen ecdsaAlg 2 0).1
          ++ [Event.clockStop, Event.output (reportLine fmtT 2 ecdsaAlg dEx (meanDur dEx 2))]) :=
  claim_C7 okGen fmtT 2 ecdsaAlg dEx (by decide) (by decide)

/-- C8, confirmed: a generation loop that returns normally has invoked the
generation capability exactly once per iteration, for iterations 1..n — so
the number of capability invocations equals the iteration count used as the
mean's denominator. -/
theorem claim_C8 (gen : GenCap) (n : Nat) (alg : Algorithm)
    (h : (gen_ssh_keys gen n alg).2 = RunOutcome.normal) :
    genCalls (gen_ssh_keys gen n alg).1 = List.range' 1 n ∧
    (genCalls (gen_ssh_keys gen n alg).1).length = n := by
  have hcalls := gen_ssh_keys_normal_genCalls gen n alg h
  exact ⟨hcalls, by rw [hcalls]; exact range1_len n 1⟩

/-- Witness for C8 at a concrete input. -/
theorem claim_C8_witness :
    genCalls (gen_ssh_keys okGen 3 ecdsaAlg).1 = List.range' 1 3 ∧
    (genCalls (gen_ssh_keys okGen 3 ecdsaAlg).1).length = 3 :=
  claim_C8 okGen 3 ecdsaAlg (by decide)

/-- C9, confirmed: when every generation call succeeds, the loop terminates
with a normal return for every iteration count n, the counter passes are
exactly 1..n, and consecutive passes increase the counter by exactly 1. -/
theorem claim_C9 (gen : GenCap) (n : Nat) (alg : Algorithm)
    (hok : ∀ j, ∃ key, gen j = Except.ok key) :
    (gen_ssh_keys gen n alg).2 = RunOutcome.normal ∧
    genCalls (gen_ssh_keys gen n alg).1 = List.range' 1 n ∧
    List.Chain' (fun a b => b = a + 1) (genCalls (gen_ssh_keys gen n alg).1) := by
  have hnorm : (genLoop gen alg n 0).2 = RunOutcome.normal :=
    genLoop_all_ok_normal gen alg n 0 (fun j _ _ => hok j)
  have houtcome : (gen_ssh_keys gen n alg).2 = RunOutcome.normal := hnorm
  have hcalls := gen_ssh_keys_normal_genCalls gen n alg houtcome
  exact ⟨houtcome, hcalls, by rw [hcalls]; exact chain_succ_range1 n 1⟩

/-- Witness for C9 at a concrete input. -/
theorem claim_C9_witness :
    (gen_ssh_keys okGen 3 ecdsaAlg).2 = RunOutcome.normal ∧
    genCalls (gen_ssh_keys okGen 3 ecdsaAlg).1 = List.range' 1 3 ∧
    List.Chain' (fun a b => b = a + 1) (genCalls (gen_ssh_keys okGen 3 ecdsaAlg).1) :=
  claim_C9 okGen 3 ecdsaAlg (fun _ => ⟨okKey, rfl⟩)

/-- C10, confirmed: every generation-capability invocation `main` causes
carries one of the three configured algorithms, so any ECDSA invocation uses
curve NIST P-521 and no other curve is ever exercised. -/
theorem claim_C10 (genE genD genR : GenCap) (fmt : Duration → String)
    (dE dD dR : Duration) (a : Algorithm) (i : Nat)
    (h : Event.genCall a i ∈ (main genE genD genR fmt dE dD dR).1) :
    a.ecdsaCurve = none ∨ a.ecdsaCurve = some EcdsaCurve.NistP521 := by
  have halg : a = Algorithm.Ecdsa EcdsaCurve.NistP521 ∨ a = Algorithm.Ed25519
      ∨ a = Algorithm.Rsa (some HashAlg.Sha256) := by
    simp only [main] at h
    cases h1 : (benchAlg genE fmt ITERATIONS (Algorithm.Ecdsa EcdsaCurve.NistP521) dE).2 with
    | panicked m =>
      rw [h1] at h
      simp at h
      exact Or.inl (genCall_mem_benchAlg genE fmt ITERATIONS
        (Algorithm.Ecdsa EcdsaCurve.NistP521) dE a i h)
    | normal =>
      rw [h1] at h
      cases h2 : (benchAlg genD fmt ITERATIONS Algorithm.Ed25519 dD).2 with
      | panicked m =>
        rw [h2] at h
        simp at h
        rcases h with h | h
        · exact Or.inl (genCall_mem_benchAlg genE fmt ITERATIONS
            (Algorithm.Ecdsa EcdsaCurve.NistP521) dE a i h)
        · exact Or.inr (Or.inl (genCall_mem_benchAlg genD fmt ITERATIONS
            Algorithm.Ed25519 dD a i h))
      | normal =>
        rw [h2] at h
        simp at h
        rcases h with h | h | h
        · exact Or.inl (genCall_mem_benchAlg genE fmt ITERATIONS
            (Algorithm.Ecdsa EcdsaCurve.NistP521) dE a i h)
        · exact Or.inr (Or.inl (genCall_mem_benchAlg genD fmt ITERATIONS
            Algorithm.Ed25519 dD a i h))
        · exact Or.inr (Or.inr (genCall_mem_benchAlg genR fmt RSA_ITERATIONS
            (Algorithm.Rsa (some HashAlg.Sha256)) dR a i h))
  rcases halg with rfl | rfl | rfl
  · right; rfl
  · left; rfl
  · left; rfl

/-- Witness for C10 at a concrete input. -/
theorem claim_C10_witness :
    Algorithm.ecdsaCurve (Algorithm.Ecdsa EcdsaCurve.NistP521) = none ∨
    Algorithm.ecdsaCurve (Algorithm.Ecdsa EcdsaCurve.NistP521) = some EcdsaCurve.NistP521 :=
  claim_C10 failGen failGen failGen fmtT dEx dEx dEx
    (Algorithm.Ecdsa EcdsaCurve.NistP521) 1 (by decide)

end SshKeyBench
